import Mathlib

/-!
Shallow embedding of the ublog persistence layer for posts
(src/db/src/models/post.rs), over a relational state modelling the SQLite
tables created by the schema in that file: posts, posts_tags and
posts_resources, together with their unique indexes and the cascade-delete
references.  Machine integers (i64, u64) are modelled as Int; overflow is
irrelevant to every property below.  The wall clock is the injected
timestamp argument ts of each mutating operation.
-/

/-- A SQLite value as bound through the ToSql trait in the source. -/
inductive Value : Type
  | int  (i : Int)
  | text (s : String)
  | blob (b : List Nat)
deriving DecidableEq

/-- Modelled from the spec: the type PostUpdateMask from crate::masks is not
under src/.  The spec describes it as an entity-specific bit-set with one
flag per mutable field plus a distinguished flag for tag changes; post.rs
uses exactly the flags TITLE, SLUG, AUTHOR, CATEGORY, CONTENT and TAGS. -/
structure PostUpdateMask where
  title : Bool
  slug : Bool
  author : Bool
  category : Bool
  content : Bool
  tags : Bool
deriving DecidableEq, Fintype

def PostUpdateMask.empty : PostUpdateMask :=
  ⟨false, false, false, false, false, false⟩

def PostUpdateMask.TITLE : PostUpdateMask :=
  ⟨true, false, false, false, false, false⟩

def PostUpdateMask.SLUG : PostUpdateMask :=
  ⟨false, true, false, false, false, false⟩

def PostUpdateMask.AUTHOR : PostUpdateMask :=
  ⟨false, false, true, false, false, false⟩

def PostUpdateMask.CATEGORY : PostUpdateMask :=
  ⟨false, false, false, true, false, false⟩

def PostUpdateMask.CONTENT : PostUpdateMask :=
  ⟨false, false, false, false, true, false⟩

def PostUpdateMask.TAGS : PostUpdateMask :=
  ⟨false, false, false, false, false, true⟩

/-- Bitflags is_empty: no flag is set. -/
def PostUpdateMask.is_empty (m : PostUpdateMask) : Bool :=
  !m.title && !m.slug && !m.author && !m.category && !m.content && !m.tags

/-- Bitflags contains: every flag set in b is also set in a. -/
def PostUpdateMask.contains (a b : PostUpdateMask) : Bool :=
  (!b.title || a.title) && (!b.slug || a.slug) && (!b.author || a.author) &&
  (!b.category || a.category) && (!b.content || a.content) && (!b.tags || a.tags)

/-- The Post domain entity, with exactly the fields post.rs reads and
writes (the field list is taken from the from_row constructor). -/
structure Post where
  id : Int
  title : String
  slug : String
  author : String
  create_timestamp : Int
  update_timestamp : Int
  category : String
  tags : List String
  views : Int
  content : String
deriving DecidableEq

/-- The PostResource domain entity, with the fields post.rs reads and
writes (post_id, name, ty, data). -/
structure PostResource where
  post_id : Int
  name : String
  ty : String
  data : List Nat
deriving DecidableEq

/-- A row of the posts table, one typed field per schema column. -/
structure PostRow where
  id : Int
  title : String
  slug : String
  author : String
  create_timestamp : Int
  update_timestamp : Int
  category : String
  views : Int
  content : String
deriving DecidableEq

/-- A row of the posts_tags table.  The schema declares post_id with TEXT
affinity, but SQLite's affinity conversion rules make an i64 key round-trip
and compare equal to the parent integer id in every statement this module
issues, so the key is modelled as Int. -/
structure TagRow where
  post_id : Int
  tag_name : String
deriving DecidableEq

/-- A row of the posts_resources table. -/
structure ResourceRow where
  post_id : Int
  res_name : String
  res_type : String
  res_data : List Nat
deriving DecidableEq

/-- The persistent database state: the three tables plus the rowid counter
for posts (id INTEGER PRIMARY KEY is server-assigned and monotonic). -/
structure DbState where
  posts : List PostRow
  postsTags : List TagRow
  postsResources : List ResourceRow
  nextRowId : Int
deriving DecidableEq

/-- The rusqlite error kinds this layer can surface, per the spec taxonomy
plus the two low-level row-decoding faults rusqlite raises. -/
inductive DbError : Type
  | notFound
  | uniqueConstraint
  | foreignKeyViolation
  | sqlSyntax
  | invalidColumnName (c : String)
  | invalidColumnType (c : String)
  | unsupportedOperation
deriving DecidableEq

/-- Row access by column name, as rusqlite row.get does over the columns
produced by the SELECT statement; an absent name is InvalidColumnName. -/
def rowGet (row : List (String × Value)) (c : String) : Except DbError Value :=
  match row.find? (fun kv => kv.1 == c) with
  | some kv => Except.ok kv.2
  | none => Except.error (DbError.invalidColumnName c)

def rowGetInt (row : List (String × Value)) (c : String) : Except DbError Int :=
  match rowGet row c with
  | Except.ok (Value.int i) => Except.ok i
  | Except.ok _ => Except.error (DbError.invalidColumnType c)
  | Except.error e => Except.error e

def rowGetText (row : List (String × Value)) (c : String) : Except DbError String :=
  match rowGet row c with
  | Except.ok (Value.text t) => Except.ok t
  | Except.ok _ => Except.error (DbError.invalidColumnType c)
  | Except.error e => Except.error e

def rowGetBlob (row : List (String × Value)) (c : String) : Except DbError (List Nat) :=
  match rowGet row c with
  | Except.ok (Value.blob b) => Except.ok b
  | Except.ok _ => Except.error (DbError.invalidColumnType c)
  | Except.error e => Except.error e

/-- Post::from_row from the source, reading each column by name. -/
def Post.from_row (row : List (String × Value)) : Except DbError Post := do
  let id ← rowGetInt row "id"
  let title ← rowGetText row "title"
  let slug ← rowGetText row "slug"
  let author ← rowGetText row "author"
  let create_timestamp ← rowGetInt row "create_timestamp"
  let update_timestamp ← rowGetInt row "update_timestamp"
  let category ← rowGetText row "category"
  let views ← rowGetInt row "views"
  let content ← rowGetText row "content"
  pure { id := id, title := title, slug := slug, author := author,
         create_timestamp := create_timestamp, update_timestamp := update_timestamp,
         category := category, tags := [], views := views, content := content }

/-- PostResource::from_row from the source.  Note it reads the column
name res_ty although the schema and the SELECT statements produce the
column res_type. -/
def PostResource.from_row (row : List (String × Value)) : Except DbError PostResource := do
  let post_id ← rowGetInt row "post_id"
  let nm ← rowGetText row "res_name"
  let t ← rowGetText row "res_ty"
  let d ← rowGetBlob row "res_data"
  pure { post_id := post_id, name := nm, ty := t, data := d }

/-- The columns produced by the posts SELECT statements, in their order. -/
def postRowCols (r : PostRow) : List (String × Value) :=
  [("id", Value.int r.id), ("title", Value.text r.title), ("slug", Value.text r.slug),
   ("author", Value.text r.author), ("create_timestamp", Value.int r.create_timestamp),
   ("update_timestamp", Value.int r.update_timestamp), ("category", Value.text r.category),
   ("views", Value.int r.views), ("content", Value.text r.content)]

/-- The columns produced by the posts_resources SELECT statement. -/
def resourceRowCols (q : ResourceRow) : List (String × Value) :=
  [("post_id", Value.int q.post_id), ("res_name", Value.text q.res_name),
   ("res_type", Value.text q.res_type), ("res_data", Value.blob q.res_data)]

/-- A post field descriptor: mask flag, storage column name, accessor. -/
structure PostFieldDescriptor where
  mask : PostUpdateMask
  name : String
  field_getter : Post → Value

/-- The POST_FIELDS table from the source, in its order. -/
def POST_FIELDS : List PostFieldDescriptor :=
  [⟨PostUpdateMask.TITLE, "title", fun p => Value.text p.title⟩,
   ⟨PostUpdateMask.SLUG, "slug", fun p => Value.text p.slug⟩,
   ⟨PostUpdateMask.AUTHOR, "author", fun p => Value.text p.author⟩,
   ⟨PostUpdateMask.CATEGORY, "category", fun p => Value.text p.category⟩,
   ⟨PostUpdateMask.CONTENT, "content", fun p => Value.text p.content⟩]

/-- The column_names vector built by update_into: update_timestamp plus
the storage column of every field flagged in the mask. -/
def postUpdateColumnNames (m : PostUpdateMask) : List String :=
  "update_timestamp" :: (POST_FIELDS.filter (fun f => m.contains f.mask)).map (fun f => f.name)

/-- The column_parameters vector built by update_into: one placeholder per
column. -/
def postUpdateColumnParameters (m : PostUpdateMask) : List String :=
  "?" :: (POST_FIELDS.filter (fun f => m.contains f.mask)).map (fun _ => "?")

/-- The column_values vector built by update_into: the fresh timestamp
followed by every flagged field value read through its accessor; these are
bound as statement parameters, never written into the SQL text. -/
def postUpdateColumnValues (ts : Int) (p : Post) (m : PostUpdateMask) : List Value :=
  Value.int ts :: (POST_FIELDS.filter (fun f => m.contains f.mask)).map (fun f => f.field_getter p)

/-- The SQL text update_into formats, with the insignificant indentation
and newlines of the raw string normalised to single spaces removed. -/
def postUpdateSql (m : PostUpdateMask) : String :=
  "UPDATE posts (" ++ String.intercalate "," (postUpdateColumnNames m) ++
  ") VALUES (" ++ String.intercalate "," (postUpdateColumnParameters m) ++ ")"

/-- Whether an UPDATE statement against the posts table is in the SQLite
UPDATE grammar.  SQLite accepts UPDATE qualified-table-name SET assignment
list, optionally followed by FROM and WHERE clauses; the token following
the table name must be the keyword SET. -/
def sqliteUpdateGrammarOk (sql : String) : Bool :=
  List.isPrefixOf "UPDATE posts SET ".data sql.data

/-- rusqlite transaction semantics as used in the source: every statement
runs against the working state, commit is the last step, and every early
error return drops the transaction, which rolls all of its writes back, so
the persistent state on failure is the state the transaction started
from. -/
def withTransaction {α : Type} (body : DbState → DbState × Except DbError α)
    (s : DbState) : DbState × Except DbError α :=
  match body s with
  | (s1, Except.ok a) => (s1, Except.ok a)
  | (_, Except.error e) => (s, Except.error e)

/-- The INSERT INTO posts statement of insert_into.  The column list binds
title, slug, author, both timestamps, category and content as parameters
and writes the literal 0 into the views column; the unique index
posts_idx_slug aborts the statement when the slug collides; the rowid is
server-assigned (last_insert_rowid). -/
def execInsertPostStmt (ts : Int) (p : Post) (s : DbState) :
    Except DbError (DbState × Int) :=
  if s.posts.any (fun r => r.slug == p.slug) then
    Except.error DbError.uniqueConstraint
  else
    Except.ok ({ s with
                  posts := s.posts ++
                    [⟨s.nextRowId, p.title, p.slug, p.author, ts, ts, p.category, 0, p.content⟩],
                  nextRowId := s.nextRowId + 1 },
               s.nextRowId)

/-- insert_post_tags from the source: one multi-row INSERT INTO posts_tags.
With an empty tag list the formatted text ends in VALUES with no row tuple,
which SQLite rejects as a syntax error.  The unique index
posts_tags_idx_uniq aborts the statement on a duplicated (post_id,
tag_name) pair.  Modelled from the spec: the schema declares the
REFERENCES posts(id) constraint and the spec states foreign keys are
supported, so foreign-key enforcement (a connection pragma set outside
src/) is assumed on, making an insert for a missing parent fail. -/
def insert_post_tags (postId : Int) (tags : List String) (s : DbState) :
    Except DbError DbState :=
  if tags.isEmpty then Except.error DbError.sqlSyntax
  else if s.posts.all (fun r => !(r.id == postId)) then
    Except.error DbError.foreignKeyViolation
  else if tags.Nodup ∧ ∀ t ∈ tags, ∀ tr ∈ s.postsTags, ¬(tr.post_id = postId ∧ tr.tag_name = t) then
    Except.ok { s with postsTags := s.postsTags ++ tags.map (fun t => ⟨postId, t⟩) }
  else Except.error DbError.uniqueConstraint

/-- The body of Post::insert_into inside its transaction: insert the
primary row, write the generated fields back into the entity, then
bulk-insert the tags when the entity has any. -/
def insertIntoRaw (ts : Int) (p : Post) (s : DbState) : DbState × Except DbError Post :=
  match execInsertPostStmt ts p s with
  | Except.error e => (s, Except.error e)
  | Except.ok (s1, rowid) =>
    let p1 := { p with id := rowid, create_timestamp := ts, update_timestamp := ts }
    if p1.tags.isEmpty then (s1, Except.ok p1)
    else
      match insert_post_tags p1.id p1.tags s1 with
      | Except.error e => (s1, Except.error e)
      | Except.ok s2 => (s2, Except.ok p1)

/-- Post::insert_into: the transactional insert.  On success the returned
Post is the passed entity with the server-assigned id and timestamps. -/
def Post.insert_into (ts : Int) (p : Post) (s : DbState) : DbState × Except DbError Post :=
  withTransaction (insertIntoRaw ts p) s

/-- select_tags_for_post from the source: replaces the tags of the hydrated
entity by the tag_name of every posts_tags row with this post id, in
storage order. -/
def select_tags_for_post (s : DbState) (p : Post) : Post :=
  { p with tags := (s.postsTags.filter (fun t => t.post_id == p.id)).map (fun t => t.tag_name) }

/-- Post::select_one_from: the keyed lookup by slug.  query_row yields the
first matching row or QueryReturnedNoRows (NotFound); the row is decoded by
from_row and its tags hydrated by select_tags_for_post. -/
def Post.select_one_from (s : DbState) (slug : String) : Except DbError Post :=
  match s.posts.find? (fun r => r.slug == slug) with
  | none => Except.error DbError.notFound
  | some r =>
    match Post.from_row (postRowCols r) with
    | Except.error e => Except.error e
    | Except.ok p => Except.ok (select_tags_for_post s p)

/-- The primary UPDATE statement executed by update_into.  The generated
text reads UPDATE posts followed directly by a parenthesised column list
and a VALUES clause; SQLite only accepts SET after the table name, so
preparing any such statement fails with a syntax error before a row is
touched (the ok branch is dead: see postUpdateSql_not_grammatical). -/
def execPostUpdateStmt (s : DbState) (sql : String) (_vals : List Value) :
    Except DbError DbState :=
  if sqliteUpdateGrammarOk sql then Except.ok s
  else Except.error DbError.sqlSyntax

/-- The body of Post::update_into inside its transaction, for a non-empty
mask: execute the built update statement, then, when the TAGS flag is set,
delete every posts_tags row of this post id and re-insert the full
replacement tag list. -/
def updateIntoRaw (ts : Int) (p : Post) (m : PostUpdateMask) (s : DbState) :
    DbState × Except DbError Post :=
  match execPostUpdateStmt s (postUpdateSql m) (postUpdateColumnValues ts p m) with
  | Except.error e => (s, Except.error e)
  | Except.ok s1 =>
    if m.contains PostUpdateMask.TAGS then
      let s2 := { s1 with postsTags := s1.postsTags.filter (fun t => !(t.post_id == p.id)) }
      match insert_post_tags p.id p.tags s2 with
      | Except.error e => (s2, Except.error e)
      | Except.ok s3 => (s3, Except.ok { p with update_timestamp := ts })
    else (s1, Except.ok { p with update_timestamp := ts })

/-- Post::update_into: an empty mask returns Ok before touching the clock,
the lock or the connection; otherwise the transactional masked update
runs, and on success the in-memory update timestamp is refreshed. -/
def Post.update_into (ts : Int) (p : Post) (m : PostUpdateMask) (s : DbState) :
    DbState × Except DbError Post :=
  if m.is_empty then (s, Except.ok p)
  else withTransaction (updateIntoRaw ts p m) s

/-- Post::delete_from: one DELETE FROM posts statement keyed by slug.
Deleting an absent slug matches no row and still succeeds.  Modelled from
the spec: foreign-key enforcement (a pragma set outside src/) is assumed
on, so the ON DELETE CASCADE references remove every posts_tags and
posts_resources row owned by a deleted post. -/
def Post.delete_from (s : DbState) (slug : String) : DbState × Except DbError Unit :=
  let deletedIds := (s.posts.filter (fun r => r.slug == slug)).map (fun r => r.id)
  ({ s with
      posts := s.posts.filter (fun r => !(r.slug == slug)),
      postsTags := s.postsTags.filter (fun t => !(deletedIds.contains t.post_id)),
      postsResources := s.postsResources.filter (fun q => !(deletedIds.contains q.post_id)) },
   Except.ok ())

/-- The UPDATE posts SET views statement of increase_views (this one is in
the SQLite grammar): writes the given counter into every row with this
id. -/
def execUpdateViewsStmt (s : DbState) (postId : Int) (v : Int) : DbState :=
  { s with posts := s.posts.map (fun r => if r.id == postId then { r with views := v } else r) }

/-- The body of increase_views inside its transaction: read the current
counter of the row keyed by id (NotFound when absent), add one, write it
back and into the entity. -/
def increaseViewsRaw (p : Post) (s : DbState) : DbState × Except DbError Post :=
  match s.posts.find? (fun r => r.id == p.id) with
  | none => (s, Except.error DbError.notFound)
  | some r =>
    (execUpdateViewsStmt s p.id (r.views + 1), Except.ok { p with views := r.views + 1 })

/-- PostModelExt::increase_views: the dedicated transactional counter
increment. -/
def Post.increase_views (p : Post) (s : DbState) : DbState × Except DbError Post :=
  withTransaction (increaseViewsRaw p) s

/-- PostResource::select_one_from: keyed lookup by (post identity, resource
name), decoding the row through PostResource::from_row. -/
def PostResource.select_one_from (s : DbState) (key : Int × String) :
    Except DbError PostResource :=
  match s.postsResources.find? (fun q => q.post_id == key.1 && q.res_name == key.2) with
  | none => Except.error DbError.notFound
  | some q => PostResource.from_row (resourceRowCols q)

/-- PostResource::insert_into: one INSERT INTO posts_resources statement.
The unique index posts_resources_idx_name_uniq aborts on a duplicated
(post_id, res_name) pair; the foreign-key reference (enforcement modelled
from the spec as for insert_post_tags) rejects a missing parent. -/
def PostResource.insert_into (q : PostResource) (s : DbState) :
    DbState × Except DbError Unit :=
  if s.posts.all (fun r => !(r.id == q.post_id)) then
    (s, Except.error DbError.foreignKeyViolation)
  else if s.postsResources.any (fun w => w.post_id == q.post_id && w.res_name == q.name) then
    (s, Except.error DbError.uniqueConstraint)
  else
    ({ s with postsResources := s.postsResources ++ [⟨q.post_id, q.name, q.ty, q.data⟩] },
     Except.ok ())

/-- PostResource::delete_from: one DELETE FROM posts_resources statement
keyed by (post identity, resource name); an absent key still succeeds. -/
def PostResource.delete_from (s : DbState) (key : Int × String) :
    DbState × Except DbError Unit :=
  ({ s with postsResources :=
      s.postsResources.filter (fun q => !(q.post_id == key.1 && q.res_name == key.2)) },
   Except.ok ())

/-- Modelled from the spec: the type Pagination of the db crate root is not
under src/; a page size and a zero-based page index. -/
structure Pagination where
  page_size : Int
  page_index : Int
deriving DecidableEq

/-- The outcome of a call that may also abort the process: rusqlite results
are ok or err, and a Rust panic is the panicked case. -/
inductive CallResult (α : Type) : Type
  | ok (a : α)
  | err (e : DbError)
  | panicked (msg : String)
deriving DecidableEq

/-- PostResource::select_many_from: the body is a single panic, reached
before any storage access. -/
def PostResource.select_many_from (s : DbState) (_pagination : Pagination) :
    DbState × CallResult (List PostResource) :=
  (s, CallResult.panicked "Selecting a list of post resource objects is not a supported operation.")

/-- PostResource::update_into: the body is a single panic, reached before
any storage access. -/
def PostResource.update_into (_q : PostResource) (s : DbState) (_mask : Unit) :
    DbState × CallResult Unit :=
  (s, CallResult.panicked "Updating post resource object is not a supported operation.")

/-- The mutating operations of the model layer, for stating properties that
quantify over every write. -/
inductive WriteOp : Type
  | insertPost (ts : Int) (p : Post)
  | updatePost (ts : Int) (p : Post) (m : PostUpdateMask)
  | deletePost (slug : String)
  | increaseViews (p : Post)
  | insertResource (q : PostResource)
  | deleteResource (postId : Int) (resName : String)

def runWriteOp : WriteOp → DbState → DbState × Except DbError Unit
  | WriteOp.insertPost ts p, s =>
    ((Post.insert_into ts p s).1, (Post.insert_into ts p s).2.map (fun _ => ()))
  | WriteOp.updatePost ts p m, s =>
    ((Post.update_into ts p m s).1, (Post.update_into ts p m s).2.map (fun _ => ()))
  | WriteOp.deletePost slug, s => Post.delete_from s slug
  | WriteOp.increaseViews p, s =>
    ((Post.increase_views p s).1, (Post.increase_views p s).2.map (fun _ => ()))
  | WriteOp.insertResource q, s => PostResource.insert_into q s
  | WriteOp.deleteResource postId resName, s => PostResource.delete_from s (postId, resName)

def WriteOp.isIncreaseViews : WriteOp → Bool
  | WriteOp.increaseViews _ => true
  | _ => false

/-- Whether an Except result is a failure. -/
def exceptIsError {α : Type} : Except DbError α → Bool
  | Except.error _ => true
  | Except.ok _ => false

/-- A well-formed database state: post ids are pairwise distinct and below
the rowid counter (every reachable state satisfies this). -/
def DbState.Wf (s : DbState) : Prop :=
  (s.posts.map (fun r => r.id)).Nodup ∧ ∀ r ∈ s.posts, r.id < s.nextRowId

/-! ## Helper lemmas -/

/-- No statement update_into can generate is in the SQLite UPDATE grammar:
the text after the table name starts with a parenthesis, never with SET. -/
theorem postUpdateSql_not_grammatical :
    ∀ m : PostUpdateMask, sqliteUpdateGrammarOk (postUpdateSql m) = false := by
  decide

/-- For every non-empty mask, update_into fails with the syntax error of its
primary statement and rolls back to the starting state. -/
theorem update_into_eq_of_not_empty (ts : Int) (p : Post) (m : PostUpdateMask)
    (s : DbState) (h : m.is_empty = false) :
    Post.update_into ts p m s = (s, Except.error DbError.sqlSyntax) := by
  unfold Post.update_into
  rw [h]
  simp only [Bool.false_eq_true, if_false]
  unfold withTransaction updateIntoRaw execPostUpdateStmt
  rw [postUpdateSql_not_grammatical m]
  simp

deriving instance DecidableEq for Except

/-! ## Concrete demonstration fixtures -/

def rowDemo : PostRow := ⟨1, "T", "a", "A", 10, 10, "c", 5, "body"⟩

def rowDemo2 : PostRow := ⟨2, "U", "b", "B", 20, 20, "d", 0, "other"⟩

def sDemo : DbState := ⟨[rowDemo, rowDemo2], [⟨1, "x"⟩], [⟨1, "img", "png", [7]⟩], 3⟩

def pDemo : Post := ⟨1, "T2", "a", "A", 10, 10, "c", ["y"], 5, "body"⟩

def resDemo : PostResource := ⟨1, "img", "png", [7]⟩

/-! ## Claim theorems -/

/-- C1: the claim says update builds a parameterized statement whose column
list is update_timestamp plus the masked columns and executes it against
exactly the row keyed by the post identity.  The code does build that
column list and parameter-bind the values, but the formatted text is
UPDATE posts (columns) VALUES (placeholders): it has no SET clause and no
WHERE clause mentioning the id, is outside the SQLite UPDATE grammar, and
therefore fails with a syntax error instead of updating the identified
row.  Evaluated here at mask = TITLE over a two-post state. -/
theorem c1_update_statement_malformed :
    postUpdateColumnNames PostUpdateMask.TITLE = ["update_timestamp", "title"] ∧
    postUpdateColumnValues 50 pDemo PostUpdateMask.TITLE =
      [Value.int 50, Value.text "T2"] ∧
    postUpdateSql PostUpdateMask.TITLE =
      "UPDATE posts (update_timestamp,title) VALUES (?,?)" ∧
    sqliteUpdateGrammarOk (postUpdateSql PostUpdateMask.TITLE) = false ∧
    Post.update_into 50 pDemo PostUpdateMask.TITLE sDemo =
      (sDemo, Except.error DbError.sqlSyntax) := by
  decide

/-- C4: the claim says an update whose mask contains TAGS succeeds and
replaces the stored tag set.  The primary update statement runs first and
is syntactically invalid, so the whole transactional update fails and the
stored tags stay what they were: evaluated at a stored post with tag x and
replacement list [y]. -/
theorem c4_tags_update_fails :
    Post.update_into 50 pDemo PostUpdateMask.TAGS sDemo =
      (sDemo, Except.error DbError.sqlSyntax) ∧
    (Post.update_into 50 pDemo PostUpdateMask.TAGS sDemo).1.postsTags = [⟨1, "x"⟩] := by
  decide

/-- C5: the claim says selectOne on PostResource returns the stored
resource when the row exists and NotFound exactly when it does not.  The
NotFound half holds, but on an existing row from_row asks for the column
res_ty, which the SELECT (res_type) does not produce, so the lookup fails
with InvalidColumnName instead of returning the resource. -/
theorem c5_select_resource_misreads_column :
    PostResource.select_one_from sDemo (1, "img") =
      Except.error (DbError.invalidColumnName "res_ty") ∧
    PostResource.select_one_from sDemo (1, "missing") =
      Except.error DbError.notFound := by
  decide

/-- C6 counterexample: the claim says selectMany and update on PostResource
return a typed UnsupportedOperation failure without aborting the process;
both bodies are a panic, so neither call returns that typed failure. -/
theorem c6_counterexample :
    (PostResource.select_many_from sDemo ⟨2, 0⟩).2 ≠
      CallResult.err DbError.unsupportedOperation ∧
    (PostResource.update_into resDemo sDemo ()).2 ≠
      CallResult.err DbError.unsupportedOperation := by
  decide

/-- C6 amended: for every input, selectMany and update on PostResource
abort by panicking with an unsupported-operation message, without touching
storage; they do not return a typed UnsupportedOperation failure. -/
theorem c6_resource_calls_panic (s : DbState) (pg : Pagination) (q : PostResource) :
    PostResource.select_many_from s pg =
      (s, CallResult.panicked
        "Selecting a list of post resource objects is not a supported operation.") ∧
    PostResource.update_into q s () =
      (s, CallResult.panicked
        "Updating post resource object is not a supported operation.") :=
  ⟨rfl, rfl⟩

/-- C9: an update with the empty mask returns success immediately, before
the clock, the lock or any statement: the stored state and the in-memory
entity are returned exactly as they were. -/
theorem c9_empty_mask_noop (ts : Int) (p : Post) (s : DbState) :
    Post.update_into ts p PostUpdateMask.empty s = (s, Except.ok p) := rfl

theorem exceptIsError_map {α β : Type} (f : α → β) (r : Except DbError α) :
    exceptIsError (r.map f) = exceptIsError r := by
  cases r <;> rfl

/-- A transaction whose body fails rolls back: the persistent state is the
state the transaction started from. -/
theorem withTransaction_error {α : Type} (body : DbState → DbState × Except DbError α)
    (s : DbState) (h : exceptIsError (withTransaction body s).2 = true) :
    (withTransaction body s).1 = s := by
  rcases hb : body s with ⟨s1, r⟩
  cases r with
  | ok a => simp [withTransaction, hb, exceptIsError] at h
  | error e => simp [withTransaction, hb]

theorem update_into_eq_of_empty (ts : Int) (p : Post) (m : PostUpdateMask)
    (s : DbState) (h : m.is_empty = true) :
    Post.update_into ts p m s = (s, Except.ok p) := by
  simp [Post.update_into, h]

/-- C3: for every mutating operation of the layer and every state, a failed
invocation leaves the persisted state exactly as it was: the transactional
writes roll back and the single-statement writes fail before changing a
row. -/
theorem c3_failed_writes_roll_back (op : WriteOp) (s : DbState)
    (h : exceptIsError (runWriteOp op s).2 = true) :
    (runWriteOp op s).1 = s := by
  cases op with
  | insertPost ts p =>
      simp only [runWriteOp, exceptIsError_map] at h ⊢
      exact withTransaction_error _ _ h
  | updatePost ts p m =>
      simp only [runWriteOp, exceptIsError_map] at h ⊢
      cases hm : m.is_empty with
      | true =>
          rw [update_into_eq_of_empty ts p m s hm] at h
          simp [exceptIsError] at h
      | false =>
          rw [update_into_eq_of_not_empty ts p m s hm]
  | deletePost slug =>
      simp [runWriteOp, Post.delete_from, exceptIsError] at h
  | increaseViews p =>
      simp only [runWriteOp, exceptIsError_map] at h ⊢
      exact withTransaction_error _ _ h
  | insertResource q =>
      simp only [runWriteOp] at h ⊢
      unfold PostResource.insert_into at h ⊢
      split
      · rfl
      · split
        · rfl
        · simp_all [exceptIsError]
  | deleteResource postId resName =>
      simp [runWriteOp, PostResource.delete_from, exceptIsError] at h

/-- C3 witness: inserting a post whose slug collides with a stored post
fails, and afterwards the state is untouched. -/
theorem c3_roll_back_witness :
    exceptIsError (runWriteOp (WriteOp.insertPost 99 pDemo) sDemo).2 = true ∧
    (runWriteOp (WriteOp.insertPost 99 pDemo) sDemo).1 = sDemo :=
  ⟨by decide, c3_failed_writes_roll_back (WriteOp.insertPost 99 pDemo) sDemo (by decide)⟩

theorem contains_false_not_mem {l : List Int} {a : Int} (h : l.contains a = false) :
    a ∉ l := by
  intro hmem
  have htrue : l.contains a = true := by
    rw [List.contains_iff_exists_mem_beq]
    exact ⟨a, hmem, by simp⟩
  rw [htrue] at h
  simp at h

/-- C7: delete always succeeds, deleting an absent key changes nothing, and
when a post with the key existed, afterwards neither its primary row nor
any tag or resource row keyed by its identity remains. -/
theorem c7_delete_idempotent_cascade (s : DbState) (slug : String) :
    (Post.delete_from s slug).2 = Except.ok () ∧
    ((∀ r ∈ s.posts, r.slug ≠ slug) → (Post.delete_from s slug).1 = s) ∧
    (∀ i : Int, (∃ r ∈ s.posts, r.slug = slug ∧ r.id = i) →
      (∀ r' ∈ (Post.delete_from s slug).1.posts, r'.slug ≠ slug) ∧
      (∀ t ∈ (Post.delete_from s slug).1.postsTags, t.post_id ≠ i) ∧
      (∀ q ∈ (Post.delete_from s slug).1.postsResources, q.post_id ≠ i)) := by
  refine ⟨rfl, ?_, ?_⟩
  · intro hnone
    have hposts : s.posts.filter (fun r => !(r.slug == slug)) = s.posts := by
      apply List.filter_eq_self.mpr
      intro r hr
      simpa using hnone r hr
    have hdel : (s.posts.filter (fun r => r.slug == slug)) = [] := by
      apply List.filter_eq_nil_iff.mpr
      intro r hr
      simpa using hnone r hr
    simp [Post.delete_from, hposts, hdel]
  · intro i hex
    rcases hex with ⟨r, hr, hslug, hid⟩
    have hmemdel : i ∈ (s.posts.filter (fun r => r.slug == slug)).map (fun r => r.id) := by
      refine List.mem_map.mpr ⟨r, ?_, hid⟩
      exact List.mem_filter.mpr ⟨hr, by simp [hslug]⟩
    refine ⟨?_, ?_, ?_⟩
    · intro r' hr'
      have := (List.mem_filter.mp hr').2
      simpa using this
    · intro t ht
      have := (List.mem_filter.mp ht).2
      simp only [Bool.not_eq_true'] at this
      intro hEq
      rw [hEq] at this
      exact contains_false_not_mem this hmemdel
    · intro q hq
      have := (List.mem_filter.mp hq).2
      simp only [Bool.not_eq_true'] at this
      intro hEq
      rw [hEq] at this
      exact contains_false_not_mem this hmemdel

/-- C7 witness: deleting the stored slug a removes the post row with id 1
and every tag and resource row owned by it. -/
theorem c7_delete_witness :
    (Post.delete_from sDemo "a").2 = Except.ok () ∧
    (∀ t ∈ (Post.delete_from sDemo "a").1.postsTags, t.post_id ≠ 1) ∧
    (∀ q ∈ (Post.delete_from sDemo "a").1.postsResources, q.post_id ≠ 1) := by
  have h := c7_delete_idempotent_cascade sDemo "a"
  have hex : ∃ r ∈ sDemo.posts, r.slug = "a" ∧ r.id = 1 :=
    ⟨rowDemo, by decide, by decide, by decide⟩
  exact ⟨h.1, (h.2.2 1 hex).2.1, (h.2.2 1 hex).2.2⟩

theorem find?_append_left_none {α : Type} (l1 l2 : List α) (p : α → Bool)
    (h : ∀ a ∈ l1, p a = false) :
    List.find? p (l1 ++ l2) = List.find? p l2 := by
  induction l1 with
  | nil => rfl
  | cons a t ih =>
      rw [List.cons_append, List.find?_cons_of_neg]
      · exact ih (fun x hx => h x (List.mem_cons_of_mem a hx))
      · simp [h a (List.mem_cons_self a t)]

/-- Decoding a posts row through from_row yields the entity with the stored
fields and an empty tag list. -/
theorem from_row_postRowCols (r : PostRow) :
    Post.from_row (postRowCols r) =
      Except.ok ⟨r.id, r.title, r.slug, r.author, r.create_timestamp,
                 r.update_timestamp, r.category, [], r.views, r.content⟩ := rfl

/-- Hydrating the tags of a freshly assigned id over old rows that do not
reference it yields exactly the inserted tag list, in order. -/
theorem tags_filter_map (postId : Int) (tags : List String) (old : List TagRow)
    (h : ∀ tr ∈ old, tr.post_id ≠ postId) :
    ((old ++ tags.map (fun t => (⟨postId, t⟩ : TagRow))).filter
        (fun t : TagRow => t.post_id == postId)).map (fun t => t.tag_name) = tags := by
  rw [List.filter_append]
  have h1 : old.filter (fun t => t.post_id == postId) = [] := by
    rw [List.filter_eq_nil_iff]
    intro tr htr
    simp [h tr htr]
  have h2 : (tags.map (fun t : String => (⟨postId, t⟩ : TagRow))).filter
      (fun t => t.post_id == postId) = tags.map (fun t => ⟨postId, t⟩) := by
    rw [List.filter_eq_self]
    intro a ha
    rcases List.mem_map.mp ha with ⟨t, _, rfl⟩
    simp
  rw [h1, h2, List.nil_append, List.map_map]
  have hcomp : ((fun t : TagRow => t.tag_name) ∘
      fun t : String => ({ post_id := postId, tag_name := t } : TagRow)) = id := rfl
  rw [hcomp, List.map_id]

/-- The post row the insert statement appends. -/
def insertedPostRow (ts : Int) (p : Post) (rowid : Int) : PostRow :=
  ⟨rowid, p.title, p.slug, p.author, ts, ts, p.category, 0, p.content⟩

/-- The state a successful insert produces. -/
def stateAfterInsert (ts : Int) (p : Post) (s : DbState) : DbState :=
  { s with
      posts := s.posts ++ [insertedPostRow ts p s.nextRowId],
      postsTags := s.postsTags ++ p.tags.map (fun t => (⟨s.nextRowId, t⟩ : TagRow)),
      nextRowId := s.nextRowId + 1 }

/-- An insert whose slug is fresh, whose tag list has no duplicates and
whose assigned id is referenced by no stale tag row succeeds: it appends
the primary row (views stored as the literal 0), appends one tag row per
tag, advances the rowid counter and returns the entity with the
server-assigned id and timestamps. -/
theorem insert_into_success (ts : Int) (p : Post) (s : DbState)
    (hslug : ∀ r ∈ s.posts, r.slug ≠ p.slug)
    (hnodup : p.tags.Nodup)
    (htags : ∀ tr ∈ s.postsTags, tr.post_id ≠ s.nextRowId) :
    Post.insert_into ts p s =
      (stateAfterInsert ts p s,
       Except.ok { p with id := s.nextRowId, create_timestamp := ts, update_timestamp := ts }) := by
  unfold stateAfterInsert
  have hany : s.posts.any (fun r => r.slug == p.slug) = false := by
    rw [List.any_eq_false]
    intro r hr
    simp [hslug r hr]
  unfold Post.insert_into withTransaction insertIntoRaw execInsertPostStmt
  rw [hany]
  simp only [Bool.false_eq_true, if_false]
  cases htl : p.tags with
  | nil =>
      simp [insertedPostRow, htl]
  | cons t0 trest =>
      rw [← htl]
      have hne : p.tags.isEmpty = false := by rw [htl]; rfl
      rw [hne]
      simp only [Bool.false_eq_true, if_false]
      unfold insert_post_tags
      rw [hne]
      simp only [Bool.false_eq_true, if_false]
      have hfk : (s.posts ++ [insertedPostRow ts p s.nextRowId]).all
          (fun r => !(r.id == s.nextRowId)) = false := by
        rw [List.all_append]
        simp [insertedPostRow]
      rw [show ((s.posts ++
          [(⟨s.nextRowId, p.title, p.slug, p.author, ts, ts, p.category, 0, p.content⟩ : PostRow)]).all
          (fun r => !(r.id == s.nextRowId))) = false from hfk]
      simp only [Bool.false_eq_true, if_false]
      rw [if_pos]
      · rfl
      · exact ⟨hnodup, fun t _ tr htr hcontra => htags tr htr hcontra.1⟩

theorem select_from_stateAfterInsert (ts : Int) (p : Post) (s : DbState)
    (hslug : ∀ r ∈ s.posts, r.slug ≠ p.slug)
    (htags : ∀ tr ∈ s.postsTags, tr.post_id ≠ s.nextRowId) :
    Post.select_one_from (stateAfterInsert ts p s) p.slug =
      Except.ok
        { p with id := s.nextRowId, create_timestamp := ts, update_timestamp := ts, views := 0 } := by
  have hfind : (stateAfterInsert ts p s).posts.find? (fun r => r.slug == p.slug) =
      some (insertedPostRow ts p s.nextRowId) := by
    unfold stateAfterInsert
    rw [find?_append_left_none _ _ _ (fun r hr => by simp [hslug r hr])]
    simp [insertedPostRow]
  unfold Post.select_one_from
  simp only [hfind, from_row_postRowCols]
  unfold select_tags_for_post stateAfterInsert insertedPostRow
  simp only [Except.ok.injEq, Post.mk.injEq, and_true, true_and]
  exact tags_filter_map s.nextRowId p.tags s.postsTags htags

def s0 : DbState := ⟨[], [], [], 1⟩

def pView : Post := ⟨0, "Hello", "hello", "me", 0, 0, "misc", ["x", "y"], 7, "text"⟩

def pViewStored : Post := ⟨1, "Hello", "hello", "me", 10, 10, "misc", ["x", "y"], 0, "text"⟩

/-- C2 counterexample: the claim as stated says the stored view counter
equals that of the inserted post.  The insert statement writes the literal
0 into the views column regardless of the entity, so a post carrying
views = 7 reads back with views = 0. -/
theorem c2_views_counterexample :
    Post.select_one_from (Post.insert_into 10 pView s0).1 pView.slug =
      Except.ok pViewStored ∧
    pViewStored.views ≠ pView.views := by
  decide

/-- C2 amended: for every valid Post (distinct tags, fresh slug, no stale
tag row on the assigned id), inserting and then selecting by slug returns
an entity equal to the input in every field except the identity and the two
timestamps, which are server-assigned and present, and the view counter,
which the insert stores as zero; in particular the stored tag list equals
that of the input. -/
theorem c2_insert_select_roundtrip (ts : Int) (p : Post) (s : DbState)
    (hslug : ∀ r ∈ s.posts, r.slug ≠ p.slug)
    (hnodup : p.tags.Nodup)
    (htags : ∀ tr ∈ s.postsTags, tr.post_id ≠ s.nextRowId) :
    (Post.insert_into ts p s).2 =
      Except.ok { p with id := s.nextRowId, create_timestamp := ts, update_timestamp := ts } ∧
    Post.select_one_from (Post.insert_into ts p s).1 p.slug =
      Except.ok
        { p with id := s.nextRowId, create_timestamp := ts, update_timestamp := ts, views := 0 } := by
  have h1 := insert_into_success ts p s hslug hnodup htags
  refine ⟨?_, ?_⟩
  · simp only [h1]
  · simp only [h1]
    exact select_from_stateAfterInsert ts p s hslug htags

/-- C2 witness: the amended round trip evaluated on a concrete post with
two tags and a nonzero in-memory view counter over the empty database. -/
theorem c2_roundtrip_witness :
    (Post.insert_into 10 pView s0).2 =
      Except.ok { pView with id := 1, create_timestamp := 10, update_timestamp := 10 } ∧
    Post.select_one_from (Post.insert_into 10 pView s0).1 pView.slug =
      Except.ok pViewStored := by
  have h := c2_insert_select_roundtrip 10 pView s0 (by simp [s0]) (by decide) (by simp [s0])
  exact ⟨h.1, h.2⟩

/-- C8: inserting a second post whose slug collides with a stored one fails
with the unique-constraint error and leaves the state unchanged, and the
first post stays retrievable exactly as stored. -/
theorem c8_duplicate_slug_insert (ts1 ts2 : Int) (p1 p2 : Post) (s : DbState)
    (hslug : ∀ r ∈ s.posts, r.slug ≠ p1.slug)
    (hnodup : p1.tags.Nodup)
    (htags : ∀ tr ∈ s.postsTags, tr.post_id ≠ s.nextRowId)
    (hdup : p2.slug = p1.slug) :
    Post.insert_into ts2 p2 (Post.insert_into ts1 p1 s).1 =
      ((Post.insert_into ts1 p1 s).1, Except.error DbError.uniqueConstraint) ∧
    Post.select_one_from (Post.insert_into ts2 p2 (Post.insert_into ts1 p1 s).1).1 p1.slug =
      Except.ok
        { p1 with id := s.nextRowId, create_timestamp := ts1, update_timestamp := ts1, views := 0 } := by
  have h1 := insert_into_success ts1 p1 s hslug hnodup htags
  have hfail : Post.insert_into ts2 p2 (stateAfterInsert ts1 p1 s) =
      (stateAfterInsert ts1 p1 s, Except.error DbError.uniqueConstraint) := by
    have hany : (stateAfterInsert ts1 p1 s).posts.any (fun r => r.slug == p2.slug) = true := by
      unfold stateAfterInsert
      rw [List.any_append]
      simp [insertedPostRow, hdup]
    unfold Post.insert_into withTransaction insertIntoRaw execInsertPostStmt
    rw [hany]
    simp
  refine ⟨?_, ?_⟩
  · simp only [h1]
    exact hfail
  · simp only [h1, hfail]
    exact select_from_stateAfterInsert ts1 p1 s hslug htags

/-- C8 witness: the duplicate-slug behaviour evaluated on two concrete
posts sharing the slug hello over the empty database. -/
theorem c8_duplicate_slug_witness :
    Post.insert_into 11 pViewStored (Post.insert_into 10 pView s0).1 =
      ((Post.insert_into 10 pView s0).1, Except.error DbError.uniqueConstraint) ∧
    Post.select_one_from
        (Post.insert_into 11 pViewStored (Post.insert_into 10 pView s0).1).1 pView.slug =
      Except.ok pViewStored := by
  have h := c8_duplicate_slug_insert 10 11 pView pViewStored s0
    (by simp [s0]) (by decide) (by simp [s0]) (by decide)
  exact ⟨h.1, h.2⟩

theorem postRow_eq_of_id_eq {l : List PostRow} (hnd : (l.map (fun r => r.id)).Nodup)
    {r r' : PostRow} (hr : r ∈ l) (hr' : r' ∈ l) (hid : r'.id = r.id) : r' = r :=
  List.inj_on_of_nodup_map hnd hr' hr hid

theorem withTransaction_state_cases {α : Type} (body : DbState → DbState × Except DbError α)
    (s : DbState) :
    (withTransaction body s).1 = s ∨ (withTransaction body s).1 = (body s).1 := by
  rcases hb : body s with ⟨s1, r⟩
  cases r <;> simp [withTransaction, hb]

theorem insert_post_tags_state (postId : Int) (tags : List String) (s s' : DbState)
    (h : insert_post_tags postId tags s = Except.ok s') :
    s' = { s with postsTags := s.postsTags ++ tags.map (fun t => ⟨postId, t⟩) } := by
  unfold insert_post_tags at h
  split at h
  · simp at h
  · split at h
    · simp at h
    · split at h
      · cases h
        rfl
      · simp at h

theorem insertIntoRaw_posts (ts : Int) (p : Post) (s : DbState) :
    (insertIntoRaw ts p s).1.posts = s.posts ∨
    (insertIntoRaw ts p s).1.posts = s.posts ++ [insertedPostRow ts p s.nextRowId] := by
  unfold insertIntoRaw
  split
  · left
    rfl
  · rename_i s1 rowid heq
    unfold execInsertPostStmt at heq
    split at heq
    · simp at heq
    · right
      cases heq
      dsimp only
      split
      · rfl
      · split
        · rfl
        · rename_i s2 heq2
          rw [insert_post_tags_state _ _ _ _ heq2]
          rfl

theorem insert_into_posts_cases (ts : Int) (p : Post) (s : DbState) :
    (Post.insert_into ts p s).1.posts = s.posts ∨
    (Post.insert_into ts p s).1.posts = s.posts ++ [insertedPostRow ts p s.nextRowId] := by
  unfold Post.insert_into
  rcases withTransaction_state_cases (insertIntoRaw ts p) s with h | h
  · left
    rw [h]
  · rw [h]
    exact insertIntoRaw_posts ts p s

theorem update_into_state (ts : Int) (p : Post) (m : PostUpdateMask) (s : DbState) :
    (Post.update_into ts p m s).1 = s := by
  cases hm : m.is_empty with
  | true => rw [update_into_eq_of_empty ts p m s hm]
  | false => rw [update_into_eq_of_not_empty ts p m s hm]

theorem increase_views_posts (p : Post) (s : DbState) :
    (Post.increase_views p s).1.posts = s.posts ∨
    (∃ r0, s.posts.find? (fun r => r.id == p.id) = some r0 ∧
      (Post.increase_views p s).1.posts =
        s.posts.map (fun r => if r.id == p.id then { r with views := r0.views + 1 } else r)) := by
  cases hf : s.posts.find? (fun r => r.id == p.id) with
  | none =>
      left
      simp [Post.increase_views, withTransaction, increaseViewsRaw, hf]
  | some r0 =>
      right
      refine ⟨r0, rfl, ?_⟩
      simp [Post.increase_views, withTransaction, increaseViewsRaw, hf, execUpdateViewsStmt]

theorem resource_insert_posts (q : PostResource) (s : DbState) :
    (PostResource.insert_into q s).1.posts = s.posts := by
  unfold PostResource.insert_into
  split
  · rfl
  · split <;> rfl

/-- C10: the field descriptor table exposes neither the views nor the
create_timestamp column to masked updates, and across every mutating
operation of the layer over a well-formed state, a stored post keeps its
creation timestamp, its view counter never decreases, and only the
dedicated view-increment operation changes that counter. -/
theorem c10_create_ts_immutable_views_monotone :
    (∀ m : PostUpdateMask, "views" ∉ postUpdateColumnNames m ∧
        "create_timestamp" ∉ postUpdateColumnNames m) ∧
    (∀ (op : WriteOp) (s : DbState), s.Wf →
      ∀ r ∈ s.posts, ∀ r' ∈ (runWriteOp op s).1.posts, r'.id = r.id →
        r'.create_timestamp = r.create_timestamp ∧
        r.views ≤ r'.views ∧
        (op.isIncreaseViews = false → r'.views = r.views)) := by
  constructor
  · decide
  · intro op s hwf r hr r' hr' hid
    cases op with
    | insertPost ts p =>
        simp only [runWriteOp] at hr'
        rcases insert_into_posts_cases ts p s with hc | hc
        · rw [hc] at hr'
          cases postRow_eq_of_id_eq hwf.1 hr hr' hid
          exact ⟨rfl, le_refl _, fun _ => rfl⟩
        · rw [hc] at hr'
          rcases List.mem_append.mp hr' with hmem | hmem
          · cases postRow_eq_of_id_eq hwf.1 hr hmem hid
            exact ⟨rfl, le_refl _, fun _ => rfl⟩
          · exfalso
            have hnew : r' = insertedPostRow ts p s.nextRowId := by
              simpa using hmem
            have : r.id < s.nextRowId := hwf.2 r hr
            rw [← hid, hnew] at this
            exact absurd this (by simp [insertedPostRow])
    | updatePost ts p m =>
        simp only [runWriteOp, update_into_state] at hr'
        cases postRow_eq_of_id_eq hwf.1 hr hr' hid
        exact ⟨rfl, le_refl _, fun _ => rfl⟩
    | deletePost slug =>
        simp only [runWriteOp, Post.delete_from] at hr'
        have hmem := (List.mem_filter.mp hr').1
        cases postRow_eq_of_id_eq hwf.1 hr hmem hid
        exact ⟨rfl, le_refl _, fun _ => rfl⟩
    | increaseViews p =>
        simp only [runWriteOp] at hr'
        rcases increase_views_posts p s with hc | ⟨r0, hfind, hc⟩
        · rw [hc] at hr'
          cases postRow_eq_of_id_eq hwf.1 hr hr' hid
          exact ⟨rfl, le_refl _, fun _ => rfl⟩
        · rw [hc] at hr'
          rcases List.mem_map.mp hr' with ⟨a, ha, hfa⟩
          have hida : r'.id = a.id := by
            rw [← hfa]
            cases hab : (a.id == p.id) <;> simp [hab]
          have haea : a = r := postRow_eq_of_id_eq hwf.1 hr ha (by rw [← hida]; exact hid)
          subst haea
          cases hab : (a.id == p.id) with
          | false =>
              rw [← hfa]
              simp [hab]
          | true =>
              have hr0mem : r0 ∈ s.posts := List.mem_of_find?_eq_some hfind
              have hr0p : (r0.id == p.id) = true :=
                List.find?_some (p := fun x => x.id == p.id) (a := r0) hfind
              have hr0a : r0 = a := by
                apply postRow_eq_of_id_eq hwf.1 ha hr0mem
                rw [beq_iff_eq] at hr0p hab
                rw [hr0p, hab]
              subst hr0a
              refine ⟨?_, ?_, ?_⟩
              · rw [← hfa]
                simp [hab]
              · rw [← hfa]
                simp only [hab, if_true]
                show r0.views ≤ r0.views + 1
                omega
              · intro hcontra
                simp [WriteOp.isIncreaseViews] at hcontra
    | insertResource q =>
        simp only [runWriteOp, resource_insert_posts] at hr'
        cases postRow_eq_of_id_eq hwf.1 hr hr' hid
        exact ⟨rfl, le_refl _, fun _ => rfl⟩
    | deleteResource postId resName =>
        simp only [runWriteOp, PostResource.delete_from] at hr'
        cases postRow_eq_of_id_eq hwf.1 hr hr' hid
        exact ⟨rfl, le_refl _, fun _ => rfl⟩

def rowDemoBumped : PostRow := ⟨1, "T", "a", "A", 10, 10, "c", 6, "body"⟩

/-- C10 witness: the view-increment operation on the stored post with id 1
keeps the creation timestamp and raises the counter from 5 to 6. -/
theorem c10_views_witness :
    rowDemoBumped.create_timestamp = rowDemo.create_timestamp ∧
    rowDemo.views ≤ rowDemoBumped.views ∧
    ((WriteOp.increaseViews pDemo).isIncreaseViews = false →
      rowDemoBumped.views = rowDemo.views) :=
  c10_create_ts_immutable_views_monotone.2 (WriteOp.increaseViews pDemo) sDemo
    ⟨by decide, by decide⟩ rowDemo (by decide) rowDemoBumped (by decide) (by decide)
